import Mathlib

/-!
Verification development for the goldpro-signals technical-analysis engine.

The repository ships a React frontend; the indicator engine itself (FastAPI
backend) is described by the specification but its source is not present in
the repository snapshot.  Engine-side definitions below are therefore
modelled from the specification text (each such definition says so in its
doc comment); frontend definitions are translated directly from the JSX
source files.

All market numerics are modelled over `ℚ` (the engine uses double-precision
floats; rationals give the same algebra without rounding), except where a
square root is required, in which case we pass to `ℝ`.
-/

namespace GoldPro

/-- The per-indicator signal vocabulary `{BUY, SELL, HOLD, STRONG_BUY,
STRONG_SELL}` from the spec's data model (§3). -/
inductive Signal where
  | strongBuy
  | buy
  | hold
  | sell
  | strongSell
deriving DecidableEq, Repr

/-- The composite-signal vocabulary `{BUY, SELL, HOLD}` (§3). -/
inductive Direction where
  | buy
  | sell
  | hold
deriving DecidableEq, Repr

/-- Modelled from the spec: §4.4 step 1 — the directional score of a signal:
`STRONG_BUY=+2, BUY=+1, HOLD=0, SELL=-1, STRONG_SELL=-2`. -/
def score : Signal → ℤ
  | .strongBuy => 2
  | .buy => 1
  | .hold => 0
  | .sell => -1
  | .strongSell => -2

/-- The slice of an `IndicatorResult` (§3) that the Composite Aggregator
consumes: a signal and a confidence on the 0–100 scale. -/
structure IndicatorResult where
  signal : Signal
  confidence : ℚ
deriving DecidableEq, Repr

/-- A `CompositeSignal`'s decision content (§3): overall direction and
confidence.  The recommendation string and the echoed contributing list are
presentation-only and are not modelled. -/
structure CompositeSignal where
  signal : Direction
  confidence : ℚ
deriving DecidableEq, Repr

/-- Accumulator for the aggregator's single pass over the batch. -/
structure AggState where
  weightedSum : ℚ
  weightSum : ℚ
  nonHold : ℕ
deriving DecidableEq, Repr

/-- One aggregation step: add this result's confidence-weighted score, its
weight, and whether it voted non-HOLD. -/
def aggStep (s : AggState) (r : IndicatorResult) : AggState :=
  { weightedSum := s.weightedSum + (score r.signal : ℚ) * (r.confidence / 100)
    weightSum := s.weightSum + r.confidence / 100
    nonHold := s.nonHold + (if r.signal = .hold then 0 else 1) }

/-- Modelled from the spec: §4.4 steps 1–2 — fold the batch once,
accumulating the confidence-weighted score sum, the weight sum and the
non-HOLD count, then normalize (guarding the division when the weight sum
is zero). -/
def normalizedScore (batch : List IndicatorResult) : ℚ :=
  let s := batch.foldl aggStep ⟨0, 0, 0⟩
  if s.weightSum = 0 then 0 else s.weightedSum / s.weightSum

/-- Modelled from the spec: §4.4 steps 3–4 — the Composite Aggregator
(absent from the repository snapshot; only its frontend callers are
present).  `minNonHold` is the minimum number of non-HOLD votes below which
the confidence is capped at `cap`; the spec leaves both as configuration. -/
def compositeAggregate (minNonHold : ℕ) (cap : ℚ)
    (batch : List IndicatorResult) : CompositeSignal :=
  let s := batch.foldl aggStep ⟨0, 0, 0⟩
  let n := normalizedScore batch
  let sig : Direction :=
    if (3 : ℚ) / 10 < n then .buy
    else if n < -((3 : ℚ) / 10) then .sell
    else .hold
  let conf0 := min 100 (max 0 (100 * |n| / 2))
  let conf := if s.nonHold < minNonHold then min conf0 cap else conf0
  ⟨sig, conf⟩

/-- The reference computation in the claim's own words: map each result to
its weighted score, sum, divide by the sum of weights (in `ℚ` the empty or
zero-weight case divides by zero and yields `0`), threshold at `±0.3`, and
clamp `100·|n|/2` to `[0,100]`, capping on sparse non-HOLD agreement. -/
def referenceComposite (minNonHold : ℕ) (cap : ℚ)
    (batch : List IndicatorResult) : CompositeSignal :=
  let n := (batch.map (fun r => (score r.signal : ℚ) * (r.confidence / 100))).sum /
      (batch.map (fun r => r.confidence / 100)).sum
  let sig : Direction :=
    if (3 : ℚ) / 10 < n then .buy
    else if n < -((3 : ℚ) / 10) then .sell
    else .hold
  let conf0 := min 100 (max 0 (100 * |n| / 2))
  let conf :=
    if batch.countP (fun r => !(r.signal = Signal.hold : Bool)) < minNonHold then
      min conf0 cap
    else conf0
  ⟨sig, conf⟩

/-- A price bar (§3): timestamp plus OHLCV.  Field `openPrice` models the
JSON key `open` (a Lean keyword). -/
structure Bar where
  timestamp : ℤ
  openPrice : ℚ
  high : ℚ
  low : ℚ
  close : ℚ
  volume : ℚ
deriving DecidableEq, Repr

/-- Consecutive close-to-close changes of a price list. -/
def diffs : List ℚ → List ℚ
  | a :: b :: t => (b - a) :: diffs (b :: t)
  | _ => []

/-- Per-bar gains: the positive part of each change. -/
def gains (closes : List ℚ) : List ℚ :=
  (diffs closes).map (fun d => max d 0)

/-- Per-bar losses: the positive part of each negated change. -/
def losses (closes : List ℚ) : List ℚ :=
  (diffs closes).map (fun d => max (-d) 0)

/-- One step of Wilder's smoothing with factor `1/period`:
`avg ← (avg·(period−1) + x)/period`. -/
def wilderStep (period : ℕ) (a x : ℚ) : ℚ :=
  (a * ((period : ℚ) - 1) + x) / (period : ℚ)

/-- Modelled from the spec: Wilder's smoothing (§4.1) — seed with the simple
average of the first `period` samples, then apply the exponential recurrence
with smoothing factor `1/period` to the rest. -/
def wilderSmooth (period : ℕ) (xs : List ℚ) : ℚ :=
  (xs.drop period).foldl (wilderStep period) ((xs.take period).sum / (period : ℚ))

/-- Modelled from the spec: the RSI value (§4.1) — `RS = avgGain/avgLoss`,
`RSI = 100 − 100/(1+RS)`, and `RSI = 100` when `avgLoss = 0` (the documented
do-not-divide-by-zero fallback). -/
def rsiValue (period : ℕ) (closes : List ℚ) : ℚ :=
  let g := wilderSmooth period (gains closes)
  let l := wilderSmooth period (losses closes)
  if l = 0 then 100 else 100 - 100 / (1 + g / l)

/-- Modelled from the spec: the RSI signal thresholds (§4.1) —
`value ≥ 70 → SELL`, `value ≤ 30 → BUY`, else HOLD. -/
def rsiSignal (v : ℚ) : Signal :=
  if 70 ≤ v then .sell else if v ≤ 30 then .buy else .hold

/-- Modelled from the spec: RSI confidence — linear in the distance from the
neutral midpoint 50, capped at 100. -/
def rsiConfidence (v : ℚ) : ℚ :=
  min 100 (2 * |v - 50|)

/-- A single indicator's full output: value, signal, confidence, and the
insufficient-data marker (§3's `IndicatorResult` with its metadata flag). -/
structure IndicatorOutput where
  value : ℚ
  signal : Signal
  confidence : ℚ
  insufficientData : Bool
deriving DecidableEq, Repr

/-- Modelled from the spec: the common graceful-failure result — signal
HOLD, confidence 0, `metadata.insufficient_data = true` (§4.1, §7). -/
def insufficientResult : IndicatorOutput :=
  ⟨0, .hold, 0, true⟩

/-- Modelled from the spec: the RSI indicator (engine source absent from the
repository snapshot) with its minimum-period guard — §3 gives 14 bars as
the minimum for a 14-period RSI. -/
def rsiIndicator (period : ℕ) (closes : List ℚ) : IndicatorOutput :=
  if closes.length < period then insufficientResult
  else
    ⟨rsiValue period closes, rsiSignal (rsiValue period closes),
      rsiConfidence (rsiValue period closes), false⟩

/-- Modelled from the spec: the True Range of a bar against the previous
close (§4.1): `max(high−low, |high−prevClose|, |low−prevClose|)`. -/
def trueRange (prevClose : ℚ) (b : Bar) : ℚ :=
  max (b.high - b.low) (max |b.high - prevClose| |b.low - prevClose|)

/-- True-range samples over consecutive bar pairs. -/
def trueRanges : List Bar → List ℚ
  | a :: b :: t => trueRange a.close b :: trueRanges (b :: t)
  | _ => []

/-- Modelled from the spec: ATR — the Wilder-smoothed average of the True
Range (§4.1). -/
def atrValue (period : ℕ) (bars : List Bar) : ℚ :=
  wilderSmooth period (trueRanges bars)

/-- Modelled from the spec: the ATR indicator (engine source absent); ATR
itself carries no directional signal (§4.1), and the minimum-period guard
returns the graceful insufficient-data result. -/
def atrIndicator (period : ℕ) (bars : List Bar) : IndicatorOutput :=
  if bars.length < period then insufficientResult
  else ⟨atrValue period bars, .hold, 0, false⟩

/-- Simple moving average of a list (`0` on the empty list, via `x/0 = 0`). -/
def sma (xs : List ℚ) : ℚ :=
  xs.sum / (xs.length : ℚ)

/-- The most recent `n` entries of a list. -/
def lastWindow (n : ℕ) (xs : List ℚ) : List ℚ :=
  xs.drop (xs.length - n)

/-- Population variance of a list around its simple mean. -/
def listVariance (xs : List ℚ) : ℚ :=
  (xs.map (fun x => (x - sma xs) ^ 2)).sum / (xs.length : ℚ)

/-- Bollinger output: the three bands, bandwidth, the position-derived
signal/confidence, and the insufficient-data marker. -/
structure BollingerOutput where
  lower : ℝ
  middle : ℝ
  upper : ℝ
  bandwidth : ℝ
  signal : Signal
  confidence : ℚ
  insufficientData : Bool

/-- The graceful insufficient-data Bollinger result. -/
def bollInsufficient : BollingerOutput :=
  ⟨0, 0, 0, 0, .hold, 0, true⟩

/-- Modelled from the spec: the Bollinger Bands indicator (§4.1, engine
source absent) — middle = SMA20 over the most recent 20 closes, upper and
lower = middle ± k·stddev20 (k default 2), bandwidth = upper − lower,
signal BUY when the last close is at or below the lower band, SELL at or
above the upper band, else HOLD; guarded by the 20-bar minimum period. -/
noncomputable def bollingerIndicator (k : ℝ) (closes : List ℚ) : BollingerOutput :=
  if closes.length < 20 then bollInsufficient
  else
    let w := lastWindow 20 closes
    let m : ℝ := (sma w : ℚ)
    let sd : ℝ := Real.sqrt ((listVariance w : ℚ) : ℝ)
    let lower := m - k * sd
    let upper := m + k * sd
    let c : ℝ := ((closes.getLast?.getD 0 : ℚ) : ℝ)
    let sig : Signal := if c ≤ lower then .buy else if upper ≤ c then .sell else .hold
    ⟨lower, m, upper, upper - lower, sig, 0, false⟩

/-- Modelled from the spec: the relative band position
`(close − lower)/(upper − lower)` with the zero-width division guarded to
the neutral midpoint `1/2`. -/
noncomputable def bollingerPosition (k : ℝ) (closes : List ℚ) : ℝ :=
  let r := bollingerIndicator k closes
  let c : ℝ := ((closes.getLast?.getD 0 : ℚ) : ℝ)
  if r.upper = r.lower then 1 / 2 else (c - r.lower) / (r.upper - r.lower)

/-- Modelled from the spec: the per-bar invariant (§3) —
`low ≤ min(open, close) ≤ max(open, close) ≤ high` and `volume ≥ 0`. -/
def validBar (b : Bar) : Bool :=
  decide (b.low ≤ min b.openPrice b.close) &&
    decide (max b.openPrice b.close ≤ b.high) && decide (0 ≤ b.volume)

/-- Strictly increasing timestamp check. -/
def strictlyIncreasingB : List ℤ → Bool
  | a :: b :: t => decide (a < b) && strictlyIncreasingB (b :: t)
  | _ => true

/-- Modelled from the spec: series-level validation (§3, §7) — every bar
satisfies the invariant and timestamps strictly increase. -/
def validSeries (bars : List Bar) : Bool :=
  bars.all validBar && strictlyIncreasingB (bars.map Bar.timestamp)

/-- The validation error signalled to the caller on a malformed request. -/
inductive EngineError where
  | validationError
deriving DecidableEq, Repr

/-- Modelled from the spec: the engine entry point (§7, source absent) —
a request whose series fails validation is rejected whole with a validation
error and no indicator result is computed; otherwise the indicator batch is
computed. -/
def analyzeRequest (period : ℕ) (bars : List Bar) :
    Except EngineError (IndicatorOutput × IndicatorOutput) :=
  if validSeries bars then
    .ok (rsiIndicator period (bars.map Bar.close), atrIndicator period bars)
  else .error .validationError

/-- Division that refuses a zero denominator, modelling IEEE NaN/Infinity
production as `none`. -/
def cdiv (a b : ℚ) : Option ℚ :=
  if b = 0 then none else some (a / b)

/-- Real-valued checked division. -/
noncomputable def cdivR (a b : ℝ) : Option ℝ :=
  if b = 0 then none else some (a / b)

/-- Wilder's smoothing with every division checked. -/
def checkedWilder (period : ℕ) (xs : List ℚ) : Option ℚ :=
  (cdiv (xs.take period).sum (period : ℚ)).bind fun seed =>
    (xs.drop period).foldl
      (fun acc x => acc.bind fun a => cdiv (a * ((period : ℚ) - 1) + x) (period : ℚ))
      (some seed)

/-- The RSI value with every division checked: the `avgLoss = 0` branch is
the spec-mandated guard, and the remaining divisions are checked. -/
def checkedRsi (period : ℕ) (closes : List ℚ) : Option ℚ :=
  (checkedWilder period (gains closes)).bind fun g =>
    (checkedWilder period (losses closes)).bind fun l =>
      if l = 0 then some 100
      else (cdiv g l).bind fun rs => (cdiv 100 (1 + rs)).map fun t => 100 - t

/-- The ATR value with every division checked. -/
def checkedAtr (period : ℕ) (bars : List Bar) : Option ℚ :=
  checkedWilder period (trueRanges bars)

/-- The aggregator's normalized score with its division checked (the
zero-weight branch is the spec-mandated guard). -/
def checkedNormalizedScore (batch : List IndicatorResult) : Option ℚ :=
  let s := batch.foldl aggStep ⟨0, 0, 0⟩
  if s.weightSum = 0 then some 0 else cdiv s.weightedSum s.weightSum

/-- The Bollinger relative position with its division checked (the
zero-width branch is guarded to the neutral midpoint). -/
noncomputable def checkedBollingerPosition (k : ℝ) (closes : List ℚ) : Option ℝ :=
  let r := bollingerIndicator k closes
  let c : ℝ := ((closes.getLast?.getD 0 : ℚ) : ℝ)
  if r.upper = r.lower then some (1 / 2) else cdivR (c - r.lower) (r.upper - r.lower)

/-- A raw chart bar as held by the KLineChart component: the OHLC fields
are numbers and `volume` may be missing or non-numeric (`none`).  From
`src/unnamed/part_001`. -/
structure RawBar where
  timestamp : ℤ
  openPrice : ℚ
  high : ℚ
  low : ℚ
  close : ℚ
  volume : Option ℚ
deriving DecidableEq, Repr

/-- A formatted bar as sent in the POST body: exactly the six numeric
fields `timestamp, open, high, low, close, volume` (field `openPrice`
models the JSON key `open`). -/
structure FormattedBar where
  timestamp : ℤ
  openPrice : ℚ
  high : ℚ
  low : ℚ
  close : ℚ
  volume : ℚ
deriving DecidableEq, Repr

/-- The formattedData mapping from `calculateIndicators`
(`src/unnamed/part_001` lines 40–47): fields pass through `Number(...)`
and `Number(d.volume) || 0` coerces a missing or non-numeric volume to 0. -/
def formatBar (d : RawBar) : FormattedBar :=
  ⟨d.timestamp, d.openPrice, d.high, d.low, d.close, d.volume.getD 0⟩

/-- The window slice from `calculateIndicators` (`src/unnamed/part_001`
lines 36–38): `endIndex = barIndex + 1` (or the whole array),
`startIndex = max(0, endIndex − 200)`, `subset = data.slice(startIndex,
endIndex)` (ℕ subtraction models the `Math.max(0, ·)`). -/
def sliceForRequest (data : List RawBar) (barIndex : Option ℕ) : List RawBar :=
  let endIndex := match barIndex with
    | some i => i + 1
    | none => data.length
  let startIndex := endIndex - 200
  (data.take endIndex).drop startIndex

/-- The POST body array built by `calculateIndicators`
(`src/unnamed/part_001` lines 32–53); `none` models the early return on an
empty bar array (no request is sent). -/
def calculateIndicatorsBody (data : List RawBar) (barIndex : Option ℕ) :
    Option (List FormattedBar) :=
  if data.isEmpty then none
  else some ((sliceForRequest data barIndex).map formatBar)

/-- JavaScript `>` on possibly-missing numbers: any comparison against
`undefined` is false. -/
def jsGt : Option ℚ → Option ℚ → Bool
  | some a, some b => decide (b < a)
  | _, _ => false

/-- JavaScript `<` on possibly-missing numbers. -/
def jsLt : Option ℚ → Option ℚ → Bool
  | some a, some b => decide (a < b)
  | _, _ => false

/-- The client-side MA signal from the KLineChart component
(`src/unnamed/part_001` lines 180–189):
`sma > close ? 'SELL' : sma < close ? 'BUY' : 'HOLD'`. -/
def maSignal (smaVal close : Option ℚ) : Direction :=
  if jsGt smaVal close then .sell else if jsLt smaVal close then .buy else .hold

lemma foldl_aggStep_weightedSum (batch : List IndicatorResult) (s : AggState) :
    (batch.foldl aggStep s).weightedSum =
      s.weightedSum + (batch.map (fun r => (score r.signal : ℚ) * (r.confidence / 100))).sum := by
  induction batch generalizing s with
  | nil => simp
  | cons r t ih =>
      simp only [List.foldl_cons, List.map_cons, List.sum_cons, ih, aggStep]
      ring

lemma foldl_aggStep_weightSum (batch : List IndicatorResult) (s : AggState) :
    (batch.foldl aggStep s).weightSum =
      s.weightSum + (batch.map (fun r => r.confidence / 100)).sum := by
  induction batch generalizing s with
  | nil => simp
  | cons r t ih =>
      simp only [List.foldl_cons, List.map_cons, List.sum_cons, ih, aggStep]
      ring

lemma foldl_aggStep_nonHold (batch : List IndicatorResult) (s : AggState) :
    (batch.foldl aggStep s).nonHold =
      s.nonHold + batch.countP (fun r => !(r.signal = Signal.hold : Bool)) := by
  induction batch generalizing s with
  | nil => simp
  | cons r t ih =>
      simp only [List.foldl_cons, ih, aggStep, List.countP_cons]
      by_cases h : r.signal = Signal.hold
      · simp [h]
      · simp [h]
        omega

/-- The aggregator's normalized score equals the reference ratio of sums. -/
lemma normalizedScore_eq (batch : List IndicatorResult) :
    normalizedScore batch =
      (batch.map (fun r => (score r.signal : ℚ) * (r.confidence / 100))).sum /
        (batch.map (fun r => r.confidence / 100)).sum := by
  unfold normalizedScore
  have hw := foldl_aggStep_weightSum batch ⟨0, 0, 0⟩
  have hws := foldl_aggStep_weightedSum batch ⟨0, 0, 0⟩
  simp only [hw, hws, zero_add]
  by_cases h : (batch.map (fun r => r.confidence / 100)).sum = 0
  · simp [h]
  · simp [h]

/-- The fold-based aggregator and the sum-based reference computation agree
on every batch (the weight-zero guard agrees with `ℚ`'s `x / 0 = 0`). -/
lemma compositeAggregate_eq_reference (minNonHold : ℕ) (cap : ℚ)
    (batch : List IndicatorResult) :
    compositeAggregate minNonHold cap batch = referenceComposite minNonHold cap batch := by
  unfold compositeAggregate referenceComposite
  have hn := foldl_aggStep_nonHold batch ⟨0, 0, 0⟩
  simp only [hn, zero_add, normalizedScore_eq]

/-- The reference computation only looks at permutation-invariant sums and
counts, so it is invariant under reordering of the batch. -/
lemma referenceComposite_perm (minNonHold : ℕ) (cap : ℚ)
    {batch batch' : List IndicatorResult} (h : batch.Perm batch') :
    referenceComposite minNonHold cap batch = referenceComposite minNonHold cap batch' := by
  unfold referenceComposite
  rw [List.Perm.sum_eq (h.map (fun r => (score r.signal : ℚ) * (r.confidence / 100))),
    List.Perm.sum_eq (h.map (fun r => r.confidence / 100)),
    List.Perm.countP_eq _ h]

lemma foldl_wilderStep_nonneg {period : ℕ} (hp : 1 ≤ period) (xs : List ℚ)
    (hxs : ∀ x ∈ xs, 0 ≤ x) {a : ℚ} (ha : 0 ≤ a) :
    0 ≤ xs.foldl (wilderStep period) a := by
  induction xs generalizing a with
  | nil => simpa using ha
  | cons x t ih =>
      apply ih (fun y hy => hxs y (List.mem_cons_of_mem x hy))
      have hx : 0 ≤ x := hxs x (List.mem_cons_self x t)
      have hp1 : (1 : ℚ) ≤ (period : ℚ) := by exact_mod_cast hp
      unfold wilderStep
      apply div_nonneg _ (by linarith)
      nlinarith

/-- Wilder's smoothing of a nonnegative sample list is nonnegative. -/
lemma wilderSmooth_nonneg {period : ℕ} (hp : 1 ≤ period) (xs : List ℚ)
    (hxs : ∀ x ∈ xs, 0 ≤ x) : 0 ≤ wilderSmooth period xs := by
  unfold wilderSmooth
  apply foldl_wilderStep_nonneg hp _ (fun y hy => hxs y (List.drop_subset _ _ hy))
  apply div_nonneg _ (by positivity)
  exact List.sum_nonneg (fun y hy => hxs y (List.take_subset _ _ hy))

/-- Wilder's smoothing of an all-zero sample list is zero. -/
lemma wilderSmooth_zero {period : ℕ} (xs : List ℚ)
    (hxs : ∀ x ∈ xs, x = 0) : wilderSmooth period xs = 0 := by
  unfold wilderSmooth
  have hseed : (xs.take period).sum / (period : ℚ) = 0 := by
    rw [List.sum_eq_zero (fun y hy => hxs y (List.take_subset _ _ hy))]
    simp
  rw [hseed]
  have hdrop : ∀ x ∈ xs.drop period, x = 0 :=
    fun y hy => hxs y (List.drop_subset _ _ hy)
  generalize xs.drop period = t at hdrop
  induction t with
  | nil => simp
  | cons x s ih =>
      have hx : x = 0 := hdrop x (List.mem_cons_self x s)
      simp only [List.foldl_cons, hx, wilderStep, zero_mul, zero_add, add_zero,
        zero_div, mul_zero]
      exact ih (fun y hy => hdrop y (List.mem_cons_of_mem x hy))

/-- On a strictly rising price list every consecutive change is positive. -/
lemma diffs_pos {closes : List ℚ} (h : closes.Chain' (· < ·)) :
    ∀ d ∈ diffs closes, 0 < d := by
  induction closes with
  | nil => simp [diffs]
  | cons a t ih =>
      cases t with
      | nil => simp [diffs]
      | cons b s =>
          rw [List.chain'_cons] at h
          intro d hd
          rw [diffs, List.mem_cons] at hd
          rcases hd with hd | hd
          · rw [hd]; linarith [h.1]
          · exact ih h.2 d hd

/-- On a strictly rising price list every loss sample is zero. -/
lemma losses_zero_of_rising {closes : List ℚ} (h : closes.Chain' (· < ·)) :
    ∀ x ∈ losses closes, x = 0 := by
  intro x hx
  unfold losses at hx
  rw [List.mem_map] at hx
  obtain ⟨d, hd, rfl⟩ := hx
  have := diffs_pos h d hd
  rw [max_eq_right]
  linarith

/-- Every gain sample is nonnegative. -/
lemma gains_nonneg (closes : List ℚ) : ∀ x ∈ gains closes, 0 ≤ x := by
  intro x hx
  unfold gains at hx
  rw [List.mem_map] at hx
  obtain ⟨d, _, rfl⟩ := hx
  exact le_max_right d 0

/-- Every loss sample is nonnegative. -/
lemma losses_nonneg (closes : List ℚ) : ∀ x ∈ losses closes, 0 ≤ x := by
  intro x hx
  unfold losses at hx
  rw [List.mem_map] at hx
  obtain ⟨d, _, rfl⟩ := hx
  exact le_max_right (-d) 0

/-- The RSI value always lies in `[0, 100]`. -/
lemma rsiValue_bounds {period : ℕ} (hp : 1 ≤ period) (closes : List ℚ) :
    0 ≤ rsiValue period closes ∧ rsiValue period closes ≤ 100 := by
  unfold rsiValue
  by_cases hl : wilderSmooth period (losses closes) = 0
  · simp [hl]
  · have hl0 : 0 ≤ wilderSmooth period (losses closes) :=
      wilderSmooth_nonneg hp _ (losses_nonneg closes)
    have hlpos : 0 < wilderSmooth period (losses closes) := lt_of_le_of_ne hl0 (Ne.symm hl)
    have hg0 : 0 ≤ wilderSmooth period (gains closes) :=
      wilderSmooth_nonneg hp _ (gains_nonneg closes)
    have hrs : 0 ≤ wilderSmooth period (gains closes) / wilderSmooth period (losses closes) :=
      div_nonneg hg0 hl0
    set rs := wilderSmooth period (gains closes) / wilderSmooth period (losses closes) with hrsdef
    have ht1 : (100 : ℚ) / (1 + rs) ≤ 100 := div_le_self (by norm_num) (by linarith)
    have ht0 : 0 ≤ (100 : ℚ) / (1 + rs) := div_nonneg (by norm_num) (by linarith)
    simp only [hl, if_false]
    constructor <;> linarith

/-- When the smoothed loss is zero the RSI value is exactly 100. -/
lemma rsiValue_eq_hundred {period : ℕ} {closes : List ℚ}
    (hl : wilderSmooth period (losses closes) = 0) : rsiValue period closes = 100 := by
  unfold rsiValue
  simp [hl]

/-- On a constant price list every consecutive change is zero. -/
lemma diffs_zero_of_const {c : ℚ} {closes : List ℚ} (h : ∀ x ∈ closes, x = c) :
    ∀ d ∈ diffs closes, d = 0 := by
  induction closes with
  | nil => simp [diffs]
  | cons a t ih =>
      cases t with
      | nil => simp [diffs]
      | cons b s =>
          intro d hd
          rw [diffs, List.mem_cons] at hd
          rcases hd with hd | hd
          · have ha : a = c := h a (List.mem_cons_self a _)
            have hb : b = c := h b (List.mem_cons_of_mem a (List.mem_cons_self b s))
            rw [hd, ha, hb, sub_self]
          · exact ih (fun y hy => h y (List.mem_cons_of_mem a hy)) d hd

/-- On a constant price list every loss sample is zero. -/
lemma losses_zero_of_const {c : ℚ} {closes : List ℚ} (h : ∀ x ∈ closes, x = c) :
    ∀ x ∈ losses closes, x = 0 := by
  intro x hx
  unfold losses at hx
  rw [List.mem_map] at hx
  obtain ⟨d, hd, rfl⟩ := hx
  rw [diffs_zero_of_const h d hd]
  simp

/-- On a flat bar list (high = low = close = c throughout) every true-range
sample is zero. -/
lemma trueRanges_zero_of_flat {c : ℚ} {bars : List Bar}
    (h : ∀ b ∈ bars, b.high = c ∧ b.low = c ∧ b.close = c) :
    ∀ x ∈ trueRanges bars, x = 0 := by
  induction bars with
  | nil => simp [trueRanges]
  | cons a t ih =>
      cases t with
      | nil => simp [trueRanges]
      | cons b s =>
          intro x hx
          rw [trueRanges, List.mem_cons] at hx
          rcases hx with hx | hx
          · obtain ⟨hah, hal, hac⟩ := h a (List.mem_cons_self a _)
            obtain ⟨hbh, hbl, hbc⟩ := h b (List.mem_cons_of_mem a (List.mem_cons_self b s))
            rw [hx]
            unfold trueRange
            rw [hbh, hbl, hac]
            simp
          · exact ih (fun y hy => h y (List.mem_cons_of_mem a hy)) x hx

/-- The simple mean of a nonempty constant list is that constant. -/
lemma sma_of_const {c : ℚ} {xs : List ℚ} (h : ∀ x ∈ xs, x = c) (hne : xs ≠ []) :
    sma xs = c := by
  unfold sma
  rw [List.sum_eq_card_nsmul xs c h, nsmul_eq_mul]
  have hlen : (0 : ℚ) < (xs.length : ℚ) := by
    have := List.length_pos.mpr hne
    exact_mod_cast this
  field_simp

/-- The population variance of a constant list is zero. -/
lemma listVariance_of_const {c : ℚ} {xs : List ℚ} (h : ∀ x ∈ xs, x = c) :
    listVariance xs = 0 := by
  unfold listVariance
  rcases eq_or_ne xs [] with rfl | hne
  · simp
  · rw [List.sum_eq_zero, zero_div]
    intro y hy
    rw [List.mem_map] at hy
    obtain ⟨x, hx, rfl⟩ := hy
    rw [h x hx, sma_of_const h hne, sub_self]
    ring

/-- Checked Wilder smoothing agrees with the unchecked computation whenever
the period is positive: no division in it can blow up. -/
lemma checkedWilder_eq {period : ℕ} (hp : 1 ≤ period) (xs : List ℚ) :
    checkedWilder period xs = some (wilderSmooth period xs) := by
  have hpq : ((period : ℕ) : ℚ) ≠ 0 := by
    have : (0 : ℚ) < (period : ℚ) := by exact_mod_cast Nat.lt_of_lt_of_le Nat.zero_lt_one hp
    linarith
  have hp0 : ¬ period = 0 := by omega
  have hstep : ∀ (t : List ℚ) (a : ℚ),
      t.foldl (fun acc x => acc.bind fun a => cdiv (a * ((period : ℚ) - 1) + x) (period : ℚ))
        (some a) = some (t.foldl (wilderStep period) a) := by
    intro t
    induction t with
    | nil => intro a; simp
    | cons x s ih =>
        intro a
        rw [List.foldl_cons, List.foldl_cons]
        have h1 : (some a).bind
            (fun a => cdiv (a * ((period : ℚ) - 1) + x) (period : ℚ)) =
            some (wilderStep period a x) := by
          simp [cdiv, if_neg hpq, wilderStep, hp0]
        rw [h1]
        exact ih _
  unfold checkedWilder wilderSmooth
  rw [show cdiv (xs.take period).sum (period : ℚ) =
    some ((xs.take period).sum / (period : ℚ)) from by simp [cdiv, if_neg hpq, hp0]]
  simp only [Option.some_bind]
  exact hstep _ _

/-- Checked RSI agrees with the unchecked value: the `avgLoss = 0` guard
covers the `RS` division and `1 + RS ≥ 1` keeps the final division safe. -/
lemma checkedRsi_eq {period : ℕ} (hp : 1 ≤ period) (closes : List ℚ) :
    checkedRsi period closes = some (rsiValue period closes) := by
  unfold checkedRsi rsiValue
  rw [checkedWilder_eq hp, checkedWilder_eq hp]
  simp only [Option.some_bind]
  by_cases hl : wilderSmooth period (losses closes) = 0
  · simp [hl]
  · have hl0 : 0 ≤ wilderSmooth period (losses closes) :=
      wilderSmooth_nonneg hp _ (losses_nonneg closes)
    have hg0 : 0 ≤ wilderSmooth period (gains closes) :=
      wilderSmooth_nonneg hp _ (gains_nonneg closes)
    have hrs : 0 ≤ wilderSmooth period (gains closes) / wilderSmooth period (losses closes) :=
      div_nonneg hg0 hl0
    have hden : (1 : ℚ) + wilderSmooth period (gains closes) / wilderSmooth period (losses closes) ≠ 0 := by
      linarith
    simp [hl, cdiv, hden]

/-- The checked normalized score agrees with the guarded computation. -/
lemma checkedNormalizedScore_eq (batch : List IndicatorResult) :
    checkedNormalizedScore batch = some (normalizedScore batch) := by
  unfold checkedNormalizedScore normalizedScore cdiv
  by_cases h : (batch.foldl aggStep ⟨0, 0, 0⟩).weightSum = 0 <;> simp [h]

/-- The checked Bollinger position agrees with the guarded computation. -/
lemma checkedBollingerPosition_eq (k : ℝ) (closes : List ℚ) :
    checkedBollingerPosition k closes = some (bollingerPosition k closes) := by
  unfold checkedBollingerPosition bollingerPosition cdivR
  by_cases h : (bollingerIndicator k closes).upper = (bollingerIndicator k closes).lower
  · simp [h]
  · have hden : (bollingerIndicator k closes).upper - (bollingerIndicator k closes).lower ≠ 0 :=
      sub_ne_zero.mpr h
    simp [h, hden]

end GoldPro

namespace GoldPro

/-- C1: for every non-empty batch of IndicatorResults, the Composite
Aggregator's output equals the reference computation: directional scores
`+2, +1, 0, −1, −2`, weighted by confidence/100, summed and divided by the sum
of weights, thresholded at `±0.3` for the final signal, confidence
`100·|n|/2` clamped to `[0,100]`, capped on fewer than `minNonHold`
non-HOLD votes. -/
theorem composite_matches_reference (minNonHold : ℕ) (cap : ℚ)
    (batch : List IndicatorResult) (_hne : batch ≠ []) :
    compositeAggregate minNonHold cap batch = referenceComposite minNonHold cap batch :=
  compositeAggregate_eq_reference minNonHold cap batch

/-- Witness for C1 at a concrete one-element batch. -/
theorem composite_matches_reference_witness :
    ([⟨Signal.buy, 80⟩] : List IndicatorResult) ≠ [] ∧
      compositeAggregate 3 40 [⟨Signal.buy, 80⟩] =
        referenceComposite 3 40 [⟨Signal.buy, 80⟩] :=
  ⟨by decide, composite_matches_reference 3 40 [⟨Signal.buy, 80⟩] (by decide)⟩

/-- C2: whenever the normalized score lies in `[-0.3, 0.3]` the aggregator
returns HOLD (never BUY or SELL), and the aggregator's output is invariant
under any permutation of the batch: it does not depend on the iteration
order of the indicators. -/
theorem composite_hold_band_and_perm_invariant (minNonHold : ℕ) (cap : ℚ)
    (batch : List IndicatorResult) :
    (-((3 : ℚ) / 10) ≤ normalizedScore batch → normalizedScore batch ≤ (3 : ℚ) / 10 →
      (compositeAggregate minNonHold cap batch).signal = Direction.hold) ∧
    ∀ batch', batch.Perm batch' →
      compositeAggregate minNonHold cap batch = compositeAggregate minNonHold cap batch' := by
  constructor
  · intro h1 h2
    have hn1 : ¬((3 : ℚ) / 10 < normalizedScore batch) := not_lt.mpr h2
    have hn2 : ¬(normalizedScore batch < -((3 : ℚ) / 10)) := not_lt.mpr h1
    simp [compositeAggregate, hn1, hn2]
  · intro batch' hp
    rw [compositeAggregate_eq_reference, compositeAggregate_eq_reference]
    exact referenceComposite_perm minNonHold cap hp

/-- Witness for C2 at a concrete two-element balanced batch and its swap. -/
theorem composite_hold_band_witness :
    (-((3 : ℚ) / 10) ≤ normalizedScore [⟨Signal.buy, 50⟩, ⟨Signal.sell, 50⟩] ∧
      normalizedScore [⟨Signal.buy, 50⟩, ⟨Signal.sell, 50⟩] ≤ (3 : ℚ) / 10) ∧
    (compositeAggregate 3 40 [⟨Signal.buy, 50⟩, ⟨Signal.sell, 50⟩]).signal = Direction.hold ∧
    compositeAggregate 3 40 [⟨Signal.buy, 50⟩, ⟨Signal.sell, 50⟩] =
      compositeAggregate 3 40 [⟨Signal.sell, 50⟩, ⟨Signal.buy, 50⟩] := by
  have h0 : normalizedScore [⟨Signal.buy, 50⟩, ⟨Signal.sell, 50⟩] = 0 := by
    norm_num [normalizedScore, aggStep, score]
  refine ⟨⟨by rw [h0]; norm_num, by rw [h0]; norm_num⟩, ?_, ?_⟩
  · exact (composite_hold_band_and_perm_invariant 3 40 _).1
      (by rw [h0]; norm_num) (by rw [h0]; norm_num)
  · exact (composite_hold_band_and_perm_invariant 3 40 _).2 _
      (List.Perm.swap (⟨Signal.sell, 50⟩ : IndicatorResult) (⟨Signal.buy, 50⟩ : IndicatorResult) [])

/-- C3: on a series of at least the minimum period, RSI is the
Wilder-smoothed computation, its value always lies in `[0,100]`, it is
exactly 100 when the smoothed loss is 0, the signal is SELL at `≥ 70`, BUY
at `≤ 30` and HOLD between, confidence is linear in the distance from 50
capped at 100, and a monotonically rising series yields value 100, signal
SELL, confidence 100. -/
theorem rsi_spec (period : ℕ) (closes : List ℚ) (hp : 1 ≤ period)
    (hlen : period ≤ closes.length) :
    (rsiIndicator period closes).value = rsiValue period closes ∧
    (0 ≤ rsiValue period closes ∧ rsiValue period closes ≤ 100) ∧
    (wilderSmooth period (losses closes) = 0 → rsiValue period closes = 100) ∧
    (70 ≤ rsiValue period closes → (rsiIndicator period closes).signal = Signal.sell) ∧
    (rsiValue period closes ≤ 30 → (rsiIndicator period closes).signal = Signal.buy) ∧
    (30 < rsiValue period closes → rsiValue period closes < 70 →
      (rsiIndicator period closes).signal = Signal.hold) ∧
    (rsiIndicator period closes).confidence = min 100 (2 * |rsiValue period closes - 50|) ∧
    (closes.Chain' (· < ·) →
      rsiIndicator period closes = ⟨100, Signal.sell, 100, false⟩) := by
  have hguard : ¬ closes.length < period := not_lt.mpr hlen
  refine ⟨?_, rsiValue_bounds hp closes, fun hl => rsiValue_eq_hundred hl,
    ?_, ?_, ?_, ?_, ?_⟩
  · simp [rsiIndicator, hguard]
  · intro h
    simp [rsiIndicator, hguard, rsiSignal, h]
  · intro h
    have hn : ¬ (70 : ℚ) ≤ rsiValue period closes := fun hc => by linarith
    simp [rsiIndicator, hguard, rsiSignal, hn, h]
  · intro h1 h2
    have hn1 : ¬ (70 : ℚ) ≤ rsiValue period closes := not_le.mpr h2
    have hn2 : ¬ rsiValue period closes ≤ 30 := not_le.mpr h1
    simp [rsiIndicator, hguard, rsiSignal, hn1, hn2]
  · simp [rsiIndicator, hguard, rsiConfidence]
  · intro hchain
    have hl : wilderSmooth period (losses closes) = 0 :=
      wilderSmooth_zero _ (losses_zero_of_rising hchain)
    have hv : rsiValue period closes = 100 := rsiValue_eq_hundred hl
    simp only [rsiIndicator, hguard, if_false, hv, rsiSignal, rsiConfidence]
    norm_num

/-- Witness for C3 on a 15-bar strictly rising close series with RSI(14). -/
theorem rsi_spec_witness :
    (1 ≤ 14 ∧
      14 ≤ ([1900, 1901, 1902, 1903, 1904, 1905, 1906, 1907, 1908, 1909, 1910,
        1911, 1912, 1913, 1914] : List ℚ).length) ∧
    rsiIndicator 14
      [1900, 1901, 1902, 1903, 1904, 1905, 1906, 1907, 1908, 1909, 1910,
        1911, 1912, 1913, 1914] = ⟨100, Signal.sell, 100, false⟩ := by
  have hchain : ([1900, 1901, 1902, 1903, 1904, 1905, 1906, 1907, 1908, 1909, 1910,
      1911, 1912, 1913, 1914] : List ℚ).Chain' (· < ·) := by
    simp only [List.chain'_cons, List.chain'_singleton, and_true]
    norm_num
  exact ⟨⟨by norm_num, by simp⟩,
    (rsi_spec 14 _ (by norm_num) (by simp)).2.2.2.2.2.2.2 hchain⟩

/-- C4 counterexample: on the 30-bar flat series at 2000.00 the modelled RSI
is 100 — the documented `avgLoss = 0` fallback of §4.1 — not 50 as the
claim states. -/
theorem flat_series_rsi_counterexample :
    rsiValue 14 (List.replicate 30 (2000 : ℚ)) = 100 ∧
    ¬ rsiValue 14 (List.replicate 30 (2000 : ℚ)) = 50 := by
  have hconst : ∀ x ∈ List.replicate 30 (2000 : ℚ), x = 2000 :=
    fun x hx => List.eq_of_mem_replicate hx
  have hl : wilderSmooth 14 (losses (List.replicate 30 (2000 : ℚ))) = 0 :=
    wilderSmooth_zero _ (losses_zero_of_const hconst)
  have hv := rsiValue_eq_hundred hl
  refine ⟨hv, ?_⟩
  rw [hv]
  norm_num

/-- C4 amended: the 30-bar flat series at 2000.00 yields ATR = 0 and
Bollinger bandwidth = 0, but RSI = 100 (hence signal SELL, confidence 100)
per the documented `avgLoss = 0` fallback, so the flat-series scenario's
RSI-50 figure — and with it the HOLD/0 composite — does not follow. -/
theorem flat_series_amended :
    atrIndicator 14 ((List.range 30).map (fun i : ℕ =>
      (⟨(i : ℤ), 2000, 2000, 2000, 2000, 0⟩ : Bar))) = ⟨0, Signal.hold, 0, false⟩ ∧
    (bollingerIndicator 2 (List.replicate 30 (2000 : ℚ))).bandwidth = 0 ∧
    rsiIndicator 14 (List.replicate 30 (2000 : ℚ)) = ⟨100, Signal.sell, 100, false⟩ := by
  refine ⟨?_, ?_, ?_⟩
  · have hflat : ∀ b ∈ (List.range 30).map (fun i : ℕ =>
        (⟨(i : ℤ), 2000, 2000, 2000, 2000, 0⟩ : Bar)),
        b.high = (2000 : ℚ) ∧ b.low = (2000 : ℚ) ∧ b.close = (2000 : ℚ) := by
      intro b hb
      rw [List.mem_map] at hb
      obtain ⟨i, _, rfl⟩ := hb
      exact ⟨rfl, rfl, rfl⟩
    have hatr : atrValue 14 ((List.range 30).map (fun i : ℕ =>
        (⟨(i : ℤ), 2000, 2000, 2000, 2000, 0⟩ : Bar))) = 0 :=
      wilderSmooth_zero _ (trueRanges_zero_of_flat hflat)
    have hguard : ¬ ((List.range 30).map (fun i : ℕ =>
        (⟨(i : ℤ), 2000, 2000, 2000, 2000, 0⟩ : Bar))).length < 14 := by
      simp
    simp [atrIndicator, hguard, hatr]
  · have hw : ∀ x ∈ lastWindow 20 (List.replicate 30 (2000 : ℚ)), x = (2000 : ℚ) :=
      fun x hx => List.eq_of_mem_replicate (List.drop_subset _ _ hx)
    have hvar : listVariance (lastWindow 20 (List.replicate 30 (2000 : ℚ))) = 0 :=
      listVariance_of_const hw
    have hguard : ¬ (List.replicate 30 (2000 : ℚ)).length < 20 := by simp
    simp only [bollingerIndicator, hguard, if_false, hvar]
    norm_num
  · have hconst : ∀ x ∈ List.replicate 30 (2000 : ℚ), x = 2000 :=
      fun x hx => List.eq_of_mem_replicate hx
    have hl : wilderSmooth 14 (losses (List.replicate 30 (2000 : ℚ))) = 0 :=
      wilderSmooth_zero _ (losses_zero_of_const hconst)
    have hv := rsiValue_eq_hundred hl
    have hguard : ¬ (List.replicate 30 (2000 : ℚ)).length < 14 := by simp
    simp only [rsiIndicator, hguard, if_false, hv, rsiSignal, rsiConfidence]
    norm_num

/-- C5: every modelled indicator, given a series shorter than its minimum
period, returns the graceful result — signal HOLD, confidence 0,
`insufficient_data = true` — instead of failing; in particular any 5-bar
series fed to RSI(14). -/
theorem insufficient_data_contract :
    (∀ (period : ℕ) (closes : List ℚ), closes.length < period →
      rsiIndicator period closes = insufficientResult) ∧
    (∀ (period : ℕ) (bars : List Bar), bars.length < period →
      atrIndicator period bars = insufficientResult) ∧
    (∀ (k : ℝ) (closes : List ℚ), closes.length < 20 →
      bollingerIndicator k closes = bollInsufficient) ∧
    (∀ closes : List ℚ, closes.length = 5 →
      (rsiIndicator 14 closes).signal = Signal.hold ∧
      (rsiIndicator 14 closes).confidence = 0 ∧
      (rsiIndicator 14 closes).insufficientData = true) := by
  refine ⟨?_, ?_, ?_, ?_⟩
  · intro period closes h
    simp [rsiIndicator, h]
  · intro period bars h
    simp [atrIndicator, h]
  · intro k closes h
    simp [bollingerIndicator, h]
  · intro closes h
    have h14 : closes.length < 14 := by omega
    simp [rsiIndicator, h14, insufficientResult]

/-- Witness for C5 on a concrete 5-bar close series and RSI(14). -/
theorem insufficient_data_contract_witness :
    (([10, 11, 12, 11, 13] : List ℚ).length = 5) ∧
    (rsiIndicator 14 [10, 11, 12, 11, 13]).signal = Signal.hold ∧
    (rsiIndicator 14 [10, 11, 12, 11, 13]).confidence = 0 ∧
    (rsiIndicator 14 [10, 11, 12, 11, 13]).insufficientData = true := by
  have h5 : (([10, 11, 12, 11, 13] : List ℚ)).length = 5 := by simp
  exact ⟨h5, insufficient_data_contract.2.2.2 _ h5⟩

/-- C6: a request containing a bar that violates the Bar invariant, or
whose timestamps fail to strictly increase, is rejected whole with a
validation error — the engine computes no indicator results on it. -/
theorem engine_rejects_malformed (period : ℕ) (bars : List Bar) :
    ((∃ b ∈ bars, validBar b = false) →
      analyzeRequest period bars = Except.error EngineError.validationError) ∧
    (strictlyIncreasingB (bars.map Bar.timestamp) = false →
      analyzeRequest period bars = Except.error EngineError.validationError) := by
  constructor
  · rintro ⟨b, hb, hvb⟩
    have hall : bars.all validBar = false := by
      cases hba : bars.all validBar with
      | false => rfl
      | true =>
          have hbt := List.all_eq_true.mp hba b hb
          rw [hvb] at hbt
          exact absurd hbt Bool.false_ne_true
    have hvs : validSeries bars = false := by
      unfold validSeries
      rw [hall, Bool.false_and]
    simp [analyzeRequest, hvs]
  · intro hts
    have hvs : validSeries bars = false := by
      unfold validSeries
      rw [hts, Bool.and_false]
    simp [analyzeRequest, hvs]

/-- Witness for C6 on a one-bar request whose bar has `high < low`. -/
theorem engine_rejects_malformed_witness :
    validBar ⟨0, 5, 1, 10, 5, 0⟩ = false ∧
    analyzeRequest 14 [⟨0, 5, 1, 10, 5, 0⟩] = Except.error EngineError.validationError := by
  have hb : validBar (⟨0, 5, 1, 10, 5, 0⟩ : Bar) = false := by
    simp [validBar]
  exact ⟨hb, (engine_rejects_malformed 14 _).1 ⟨_, List.mem_cons_self _ _, hb⟩⟩

/-- C7: with the NaN-producing divisions modelled as checked divisions
(`none` on a zero denominator), every modelled numeric computation — RSI,
ATR, the aggregator's normalized score, the Bollinger position — returns
`some` of its guarded value on every input: no division escapes its guard,
so no NaN/Infinity can reach an output. -/
theorem guarded_divisions_no_nan (period : ℕ) (hp : 1 ≤ period) (closes : List ℚ)
    (bars : List Bar) (batch : List IndicatorResult) (k : ℝ) :
    checkedRsi period closes = some (rsiValue period closes) ∧
    checkedAtr period bars = some (atrValue period bars) ∧
    checkedNormalizedScore batch = some (normalizedScore batch) ∧
    checkedBollingerPosition k closes = some (bollingerPosition k closes) :=
  ⟨checkedRsi_eq hp closes, checkedWilder_eq hp _, checkedNormalizedScore_eq batch,
    checkedBollingerPosition_eq k closes⟩

/-- Witness for C7 at period 14 on concrete (empty) inputs. -/
theorem guarded_divisions_witness :
    1 ≤ 14 ∧ checkedRsi 14 ([] : List ℚ) = some (rsiValue 14 []) :=
  ⟨by norm_num, (guarded_divisions_no_nan 14 (by norm_num) [] [] [] 0).1⟩

/-- C8: whenever the Bollinger Bands indicator computes bands (the series
reaches the 20-bar window and the band multiplier is nonnegative, default
2), the middle band is the SMA20 of the window and
`lower ≤ middle ≤ upper`. -/
theorem bollinger_band_order (k : ℝ) (closes : List ℚ) (hk : 0 ≤ k)
    (hlen : 20 ≤ closes.length) :
    (bollingerIndicator k closes).middle = ((sma (lastWindow 20 closes) : ℚ) : ℝ) ∧
    (bollingerIndicator k closes).lower ≤ (bollingerIndicator k closes).middle ∧
    (bollingerIndicator k closes).middle ≤ (bollingerIndicator k closes).upper := by
  have hguard : ¬ closes.length < 20 := not_lt.mpr hlen
  have hsd : 0 ≤ Real.sqrt (((listVariance (lastWindow 20 closes) : ℚ) : ℝ)) :=
    Real.sqrt_nonneg _
  have hks : 0 ≤ k * Real.sqrt (((listVariance (lastWindow 20 closes) : ℚ) : ℝ)) :=
    mul_nonneg hk hsd
  simp only [bollingerIndicator, hguard, if_false]
  refine ⟨trivial, by linarith, by linarith⟩

/-- Witness for C8 with k = 2 on a concrete 20-bar window. -/
theorem bollinger_band_order_witness :
    (0 : ℝ) ≤ 2 ∧ 20 ≤ (List.replicate 20 (2000 : ℚ)).length ∧
    (bollingerIndicator 2 (List.replicate 20 (2000 : ℚ))).lower ≤
      (bollingerIndicator 2 (List.replicate 20 (2000 : ℚ))).middle ∧
    (bollingerIndicator 2 (List.replicate 20 (2000 : ℚ))).middle ≤
      (bollingerIndicator 2 (List.replicate 20 (2000 : ℚ))).upper := by
  refine ⟨by norm_num, by simp, ?_, ?_⟩
  · exact (bollinger_band_order 2 _ (by norm_num) (by simp)).2.1
  · exact (bollinger_band_order 2 _ (by norm_num) (by simp)).2.2

/-- C9: for a loaded bar array and a selected bar index, the POST body
built by `calculateIndicators` is the formatted image of a suffix of the
first `i+1` bars of exactly `min(i+1, 200)` elements — the at most 200 most
recent bars ending at (and including) the selected bar — and every
element's volume is the source volume coerced to 0 when missing. -/
theorem post_body_window (data : List RawBar) (i : ℕ) (hi : i < data.length) :
    ∃ s : List RawBar,
      (data.take (i + 1)).take (i + 1 - 200) ++ s = data.take (i + 1) ∧
      s.length = min (i + 1) 200 ∧
      calculateIndicatorsBody data (some i) = some (s.map formatBar) ∧
      (s.map formatBar).length ≤ 200 ∧
      ∀ r ∈ s, (formatBar r).volume = r.volume.getD 0 := by
  refine ⟨(data.take (i + 1)).drop (i + 1 - 200), List.take_append_drop _ _, ?_, ?_, ?_, ?_⟩
  · rw [List.length_drop, List.length_take]
    omega
  · have hempty : data.isEmpty = false := by
      cases data with
      | nil => simp at hi
      | cons a t => rfl
    simp [calculateIndicatorsBody, hempty, sliceForRequest]
  · rw [List.length_map, List.length_drop, List.length_take]
    omega
  · intro r _
    rfl

/-- Witness for C9 on a concrete 3-bar array with the last bar selected. -/
theorem post_body_window_witness :
    2 < ([⟨0, 1, 2, 0, 1, none⟩, ⟨1, 1, 2, 0, 1, some 5⟩,
        ⟨2, 1, 2, 0, 1, none⟩] : List RawBar).length ∧
    ∃ s : List RawBar,
      (([⟨0, 1, 2, 0, 1, none⟩, ⟨1, 1, 2, 0, 1, some 5⟩,
        ⟨2, 1, 2, 0, 1, none⟩] : List RawBar).take (2 + 1)).take (2 + 1 - 200) ++ s =
        ([⟨0, 1, 2, 0, 1, none⟩, ⟨1, 1, 2, 0, 1, some 5⟩,
          ⟨2, 1, 2, 0, 1, none⟩] : List RawBar).take (2 + 1) ∧
      s.length = min (2 + 1) 200 ∧
      calculateIndicatorsBody [⟨0, 1, 2, 0, 1, none⟩, ⟨1, 1, 2, 0, 1, some 5⟩,
        ⟨2, 1, 2, 0, 1, none⟩] (some 2) = some (s.map formatBar) ∧
      (s.map formatBar).length ≤ 200 ∧
      ∀ r ∈ s, (formatBar r).volume = r.volume.getD 0 :=
  ⟨by simp, post_body_window _ 2 (by simp)⟩

/-- C10: the MA20/MA50 signals shown by the KLineChart component are
computed client-side from the flat `sma` value and the response's `close`:
SELL exactly when both are present and sma > close, BUY exactly when both
are present and sma < close, and HOLD otherwise — in particular whenever
either value is missing, since a JavaScript comparison with `undefined` is
false. -/
theorem ma_signal_client_derivation (smaVal close : Option ℚ) :
    (maSignal smaVal close = Direction.sell ↔
      ∃ a b, smaVal = some a ∧ close = some b ∧ b < a) ∧
    (maSignal smaVal close = Direction.buy ↔
      ∃ a b, smaVal = some a ∧ close = some b ∧ a < b) ∧
    ((smaVal = none ∨ close = none) → maSignal smaVal close = Direction.hold) := by
  rcases smaVal with _ | a
  · rcases close with _ | b
    · simp [maSignal, jsGt, jsLt]
    · simp [maSignal, jsGt, jsLt]
  · rcases close with _ | b
    · simp [maSignal, jsGt, jsLt]
    · rcases lt_trichotomy a b with h | h | h
      · simp [maSignal, jsGt, jsLt, h, lt_asymm h]
      · simp [maSignal, jsGt, jsLt, h, lt_irrefl]
      · simp [maSignal, jsGt, jsLt, h, lt_asymm h]

/-- Witness for C10: sma 5 against close 3 yields SELL. -/
theorem ma_signal_witness :
    maSignal (some 5) (some 3) = Direction.sell :=
  (ma_signal_client_derivation (some 5) (some 3)).1.mpr ⟨5, 3, rfl, rfl, by norm_num⟩

end GoldPro
